import Mathlib

/-!
Shallow embedding of the storage / scoring / ingestion core of the
rag-prototype repository.

Part 1 models the PostgreSQL document store together with the triggers of
`db-init/init.sql` and the write path of `PostgreSQLXenovaConnector`
(src/unnamed/part_006) backed by `XenovaEmbeddingService.ts` and
`PostgreSQLConnection.ts`.

Conventions of the embedding:
* SQL `REAL` / `DOUBLE PRECISION` arithmetic is modelled over `ℚ`.
* Embedding vectors are `List ℚ`; the `vector(384)` column type of the
  `documents` table rejects any inserted or updated vector whose length is
  not 384 (pgvector dimension check).
* `NOW()` is modelled by an explicit transaction-time parameter `t : ℕ`.
* The embedding model itself (`Xenova/all-MiniLM-L6-v2`) is opaque: every
  operation is parametrised by an arbitrary `embed : String → List ℚ`
  standing for one pipeline inference on a (trimmed) text.
* Transaction semantics follow PostgreSQL: once a statement inside an open
  transaction fails, the transaction is aborted, every later statement in
  it fails, and a `COMMIT` sent on an aborted transaction performs a
  rollback without raising an error to the client (node-pg surfaces no
  exception for it).  `JSONB` metadata is modelled as a key-value list.
* `documents.id` is `VARCHAR(50) PRIMARY KEY` with no default in either
  checked-in schema, and the connector's INSERT statements omit the
  column, so no connector insert can commit; row-holding states arise
  from the seeding scripts' explicit-id inserts and are modelled directly
  as concrete stores.
-/

namespace Rag

/-- Embedding vectors as they travel through the connector. -/
abbrev Vec := List ℚ

/-- Opaque model of a JSONB metadata object. -/
abbrev Meta := List (String × String)

/-- Structural model of JavaScript `String.prototype.trim` (the blank test
`text.trim().length === 0` of the validated code): strip whitespace from
both ends.  The embedding implements every string operation structurally
over the character list so that all of them stay kernel-computable. -/
def jsTrim (s : String) : String :=
  (((s.data.dropWhile Char.isWhitespace).reverse.dropWhile
    Char.isWhitespace).reverse).asString

/-- Splitting on the single space character with empty fields kept: the
behaviour of SQL `string_to_array(s, ' ')`. -/
def splitOnSpaceAux : List Char → List Char → List (List Char)
  | [], acc => [acc.reverse]
  | c :: cs, acc =>
    if c = ' ' then acc.reverse :: splitOnSpaceAux cs []
    else splitOnSpaceAux cs (c :: acc)

/-- Splitting a character list on spaces. -/
def splitOnSpace (l : List Char) : List (List Char) :=
  splitOnSpaceAux l []

/-- Word counting of `update_document_bm25` in init.sql:
`array_length(string_to_array(regexp_replace(content, '[^\w\s]', ' ', 'g'), ' '), 1)`.
Non-word, non-whitespace characters become spaces, the string is split on
single spaces, and the resulting array length (empty fields included) is the
word count. -/
def sqlWordCount (content : String) : ℕ :=
  (splitOnSpace (content.data.map
    (fun c => if c.isAlphanum || c = '_' || c.isWhitespace then c else ' '))).length

/-- Query-term preparation of `hybrid_search_documents` in init.sql:
`string_to_array(regexp_replace(lower(query_text), '[^\w\s]', ' ', 'g'), ' ')`
followed by `array_remove(query_terms, '')`. -/
def sqlTokenize (q : String) : List String :=
  (((splitOnSpace ((q.data.map Char.toLower).map
      (fun c => if c.isAlphanum || c = '_' then c else ' '))).map
    List.asString).filter (fun s => s ≠ ""))

/-- One row of the `documents` table (columns touched by the modelled code;
`tsvector_content` is opaque to every claim and therefore not carried). -/
structure StoredDoc where
  id : ℕ
  title : Option String
  content : String
  metadata : Meta
  embedding : Vec
  wordCount : ℕ
  avgDocLen : ℚ
  createdAt : ℕ
  updatedAt : ℕ
  deriving Repr, DecidableEq

/-- The singleton `bm25_stats` row. -/
structure StatsTable where
  total_documents : ℕ
  average_document_length : ℚ
  statsUpdatedAt : ℕ
  deriving Repr, DecidableEq

/-- Database state: the `documents` table and the `bm25_stats` singleton. -/
structure DB where
  docs : List StoredDoc
  stats : StatsTable
  deriving Repr, DecidableEq

/-- Initial state produced by init.sql: no documents and a `(0, 0)` stats
row. -/
def emptyDB : DB :=
  { docs := [],
    stats := { total_documents := 0, average_document_length := 0, statsUpdatedAt := 0 } }

/-- Statistics recomputation of `update_bm25_stats` in init.sql:
`SELECT COUNT(*), AVG(word_count) FROM documents WHERE word_count > 0`,
with `COALESCE(avg_length, 0)`. -/
def recomputeStats (docs : List StoredDoc) (t : ℕ) : StatsTable :=
  let pos := docs.filter (fun d => 0 < d.wordCount)
  { total_documents := pos.length
    average_document_length :=
      if pos.length = 0 then 0
      else ((pos.map (fun d => (d.wordCount : ℚ))).sum) / (pos.length : ℚ)
    statsUpdatedAt := t }

/-- Effect of `update_bm25_stats()`: rewrite the stats row and push the new
average into every document's `avg_doc_length` column. -/
def applyStatsUpdate (db : DB) (t : ℕ) : DB :=
  let s := recomputeStats db.docs t
  { db with
      stats := s
      docs := db.docs.map (fun d => { d with avgDocLen := s.average_document_length }) }

/-- Effect of `update_document_bm25(doc_id)`: recompute `word_count` for the
named row (the opaque `tsvector_content` update is not carried). -/
def applyDocBm25 (db : DB) (docId : ℕ) : DB :=
  { db with
      docs := db.docs.map
        (fun d => if d.id = docId then { d with wordCount := sqlWordCount d.content } else d) }

/-- The `documents_bm25_update` trigger body (`trigger_update_bm25`), fired
AFTER INSERT OR UPDATE OF content, inside the writing transaction. -/
def fireBm25Trigger (db : DB) (docId : ℕ) (t : ℕ) : DB :=
  applyStatsUpdate (applyDocBm25 db docId) t

/-- One `INSERT INTO documents (title, content, metadata, embedding, ...)`
as issued by the connector.  The column list omits `id`, but `documents.id`
is `VARCHAR(50) PRIMARY KEY` with no default in either checked-in schema
and no trigger supplies one, so no such INSERT can commit: a wrong-length
embedding is rejected first, when the `vector(384)` cast forms the row to
insert, and every remaining row is rejected by the NOT NULL constraint on
`id`.  Nothing is ever appended and the AFTER INSERT trigger never fires. -/
def dbInsert (db : DB) (t : ℕ) (title : Option String) (content : String)
    (metadata : Meta) (emb : Vec) : Except String DB :=
  if emb.length ≠ 384 then
    Except.error "expected 384 dimensions"
  else
    Except.error "null value in column id violates not-null constraint"

/-- The `Document` input shape of the TypeScript connector (fields the write
path reads; optional fields are `Option`). -/
structure DocInput where
  title : Option String
  content : String
  metadata : Option Meta
  embedding : Option Vec
  deriving Repr, DecidableEq

/-- The `validateDocument` guard of DatabaseConnector.ts restricted to
type-correct inputs: it rejects exactly the documents whose content is empty
after trimming (the remaining checks are `typeof` guards that cannot fire on
values of the declared `Document` type). -/
def validateDocument (d : DocInput) : Bool :=
  jsTrim d.content ≠ ""

/-- The single-text path `XenovaEmbeddingService.generateEmbedding`: reject
blank text, run the pipeline on the trimmed text, and reject an output whose
length is not `this.dimensions` (384). -/
def generateEmbeddingSvc (embed : String → Vec) (text : String) : Except String Vec :=
  if jsTrim text = "" then Except.error "Text cannot be empty"
  else
    let e := embed (jsTrim text)
    if e.length ≠ 384 then Except.error "Expected 384 dimensions" else Except.ok e

/-- The batch path `XenovaEmbeddingService.generateEmbeddings`: an empty
input yields `[]`; otherwise blank texts are filtered out, an all-blank
input raises, and each surviving text is embedded (trimmed) in order.
The batch path performs no dimension check on the produced vectors. -/
def generateEmbeddingsSvc (embed : String → Vec) (texts : List String) :
    Except String (List Vec) :=
  if texts = [] then Except.ok []
  else
    let valid := texts.filter (fun tx => jsTrim tx ≠ "")
    if valid = [] then Except.error "No valid texts provided"
    else Except.ok (valid.map (fun tx => embed (jsTrim tx)))

/-- The `document.title || null` coercion of the insert parameter list: an
empty-string title is stored as NULL. -/
def jsTitleOrNull (title : Option String) : Option String :=
  match title with
  | some s => if s = "" then none else some s
  | none => none

/-- `PostgreSQLXenovaConnector.addDocument`: validate, embed when the caller
supplied no vector, insert, return the id surfaced by `RETURNING`; a thrown
error at any step propagates to the caller.  Because `dbInsert` always
fails (see there), the success branch is unreachable — every call errors
before any id exists, so the dead id slot is filled with 0. -/
def addDocument (embed : String → Vec) (t : ℕ) (db : DB) (d : DocInput) :
    Except String (DB × ℕ) :=
  if ¬ validateDocument d then
    Except.error "Document content cannot be empty"
  else
    match (match d.embedding with
      | some e => Except.ok e
      | none => generateEmbeddingSvc embed d.content) with
    | Except.error msg => Except.error msg
    | Except.ok emb =>
      match dbInsert db t (jsTitleOrNull d.title) d.content (d.metadata.getD []) emb with
      | Except.error msg => Except.error msg
      | Except.ok db1 => Except.ok (db1, 0)

/-- Aggregate result of a batch import (the `errors` payload carries no
information any claim depends on and is dropped). -/
structure ImportResult where
  success : Bool
  imported : ℕ
  failed : ℕ
  deriving Repr, DecidableEq

/-- The per-document loop inside the chunk transaction of
`PostgreSQLXenovaConnector.addDocuments`.  State: current in-transaction
database, the aborted flag of the transaction, and the queue of pre-generated
embeddings (`embeddings[embeddingIndex++]` realised as head/tail).  Each
document is validated, then (only when it carries no embedding) consumes the
next queue entry, then is inserted; an insert on an aborted transaction
fails, and a failing insert aborts the transaction.  Returns the transaction
database, the aborted flag, and the `imported`/`failed` increments. -/
def runInserts (t : ℕ) (txdb : DB) (aborted : Bool) :
    List DocInput → List Vec → DB × Bool × ℕ × ℕ
  | [], _ => (txdb, aborted, 0, 0)
  | d :: rest, embs =>
    if validateDocument d then
      let emb := match d.embedding with
        | some e => e
        | none => embs.headD []
      let embsRest := match d.embedding with
        | some _ => embs
        | none => embs.tail
      if aborted then
        let r := runInserts t txdb true rest embsRest
        (r.1, r.2.1, r.2.2.1, r.2.2.2 + 1)
      else
        match dbInsert txdb t (jsTitleOrNull d.title) d.content (d.metadata.getD []) emb with
        | Except.ok db1 =>
          let r := runInserts t db1 false rest embsRest
          (r.1, r.2.1, r.2.2.1 + 1, r.2.2.2)
        | Except.error _ =>
          let r := runInserts t txdb true rest embsRest
          (r.1, r.2.1, r.2.2.1, r.2.2.2 + 1)
    else
      let r := runInserts t txdb aborted rest embs
      (r.1, r.2.1, r.2.2.1, r.2.2.2 + 1)

/-- One chunk of `addDocuments`: pre-generate embeddings for the documents
lacking one, then run every insert inside one transaction.  A throwing
batch-embedding call makes the whole callback throw, the transaction rolls
back and the outer catch counts the entire chunk as failed.  Otherwise the
loop runs to completion and `COMMIT` is sent: on an aborted transaction the
commit rolls the chunk back without raising, so the already-accumulated
`imported`/`failed` increments stand. -/
def processChunk (embed : String → Vec) (t : ℕ) (db : DB) (batch : List DocInput) :
    DB × ℕ × ℕ :=
  let textsToEmbed := (batch.filter (fun d => d.embedding.isNone)).map (fun d => d.content)
  match generateEmbeddingsSvc embed textsToEmbed with
  | Except.error _ => (db, 0, batch.length)
  | Except.ok embs =>
    let r := runInserts t db false batch embs
    if r.2.1 then (db, r.2.2.1, r.2.2.2) else (r.1, r.2.2.1, r.2.2.2)

/-- The chunking loop of `addDocuments` (`batchSize = 50`, slices of the
submitted array, counters accumulated across chunks).  The loop runs one
iteration per 50-element slice; recursion is driven by a fuel bound on the
number of remaining documents, which the caller sets to the full list
length (an over-approximation of the iteration count, so the zero-fuel
branch on a non-empty list is unreachable — the counting theorems below
would not hold otherwise). -/
def addDocumentsGo (embed : String → Vec) (t : ℕ) : ℕ → DB → List DocInput → DB × ℕ × ℕ
  | _, db, [] => (db, 0, 0)
  | 0, db, _ :: _ => (db, 0, 0)
  | fuel + 1, db, d :: rest =>
    let c := processChunk embed t db ((d :: rest).take 50)
    let r := addDocumentsGo embed t fuel c.1 ((d :: rest).drop 50)
    (r.1, c.2.1 + r.2.1, c.2.2 + r.2.2)

/-- `PostgreSQLXenovaConnector.addDocuments`: empty input short-circuits to
a successful zero result, otherwise the chunk loop runs and `success` is
`failed === 0`. -/
def addDocuments (embed : String → Vec) (t : ℕ) (db : DB) (docs : List DocInput) :
    DB × ImportResult :=
  if docs = [] then (db, { success := true, imported := 0, failed := 0 })
  else
    let r := addDocumentsGo embed t docs.length db docs
    (r.1, { success := r.2.2 = 0, imported := r.2.1, failed := r.2.2 })

/-- `Partial<Document>` as read by `updateDocument`: `none` is an absent
field (`undefined`). -/
structure PartialDoc where
  title : Option String
  content : Option String
  embedding : Option Vec
  metadata : Option Meta
  deriving Repr, DecidableEq

/-- The `UPDATE documents SET ... WHERE id = $n` statement issued by
`updateDocument`, together with the BEFORE UPDATE `updated_at` trigger, the
`vector(384)` dimension check on an updated embedding, and the AFTER UPDATE
OF content BM25 trigger.  When no row carries the id the statement updates
nothing and no trigger fires. -/
def dbUpdateRow (t docId : ℕ) (newTitle : Option String)
    (newContent : Option String) (newEmb : Option Vec) (newMeta : Option Meta)
    (d : StoredDoc) : StoredDoc :=
  if d.id = docId then
    { d with
        title := if newTitle.isSome then newTitle else d.title
        content := newContent.getD d.content
        embedding := newEmb.getD d.embedding
        metadata := newMeta.getD d.metadata
        updatedAt := t }
  else d

/-- Effect of the UPDATE statement on the documents table (the BEFORE UPDATE
trigger folds the `updated_at = NOW()` assignment into `dbUpdateRow`). -/
def dbUpdate (db : DB) (t : ℕ) (docId : ℕ) (newTitle : Option String)
    (newContent : Option String) (newEmb : Option Vec) (newMeta : Option Meta) :
    Except String DB :=
  if db.docs.all (fun d => d.id ≠ docId) then Except.ok db
  else if (newEmb.getD (List.replicate 384 0)).length ≠ 384 then
    Except.error "expected 384 dimensions"
  else if newContent.isSome then
    Except.ok (fireBm25Trigger
      { db with docs := db.docs.map (dbUpdateRow t docId newTitle newContent newEmb newMeta) }
      docId t)
  else
    Except.ok
      { db with docs := db.docs.map (dbUpdateRow t docId newTitle newContent newEmb newMeta) }

/-- `PostgreSQLXenovaConnector.updateDocument`: collect SET clauses from the
defined fields of the partial document — content (which regenerates the
embedding, a thrown embedding error propagating), otherwise an explicit
embedding when one is supplied — return without touching the database when
no clause at all was collected (the `updates.length === 0` early return),
and otherwise issue the UPDATE.  The boolean reports whether an UPDATE
statement was sent. -/
def updateDocument (embed : String → Vec) (t : ℕ) (db : DB) (docId : ℕ)
    (p : PartialDoc) : Except String (DB × Bool) :=
  match p.content with
  | some c =>
    if c = "" ∨ jsTrim c = "" then Except.error "Document content cannot be empty"
    else
      match generateEmbeddingSvc embed c with
      | Except.error msg => Except.error msg
      | Except.ok e =>
        match dbUpdate db t docId p.title (some c) (some e) p.metadata with
        | Except.error msg => Except.error msg
        | Except.ok db1 => Except.ok (db1, true)
  | none =>
    match p.embedding with
    | some e =>
      match dbUpdate db t docId p.title none (some e) p.metadata with
      | Except.error msg => Except.error msg
      | Except.ok db1 => Except.ok (db1, true)
    | none =>
      if p.title.isNone ∧ p.metadata.isNone then Except.ok (db, false)
      else
        match dbUpdate db t docId p.title none none p.metadata with
        | Except.error msg => Except.error msg
        | Except.ok db1 => Except.ok (db1, true)

/-- `PostgreSQLXenovaConnector.deleteDocument`: a bare
`DELETE FROM documents WHERE id = $1`.  No trigger watches DELETE, so the
stats row is left untouched, and the row count is not inspected. -/
def deleteDocument (db : DB) (docId : ℕ) : DB :=
  { db with docs := db.docs.filter (fun d => d.id ≠ docId) }

/-- `PostgreSQLXenovaConnector.getDocumentCount`. -/
def getDocumentCount (db : DB) : ℕ :=
  db.docs.length

/-- Response shape of the `remove_document` MCP tool. -/
structure RemoveToolResult where
  success : Bool
  removedId : ℕ
  deriving Repr, DecidableEq

/-- The `remove_document` tool of rag-tools.ts: await `deleteDocument` and
answer `{ success: true, id }` unconditionally. -/
def removeDocumentTool (db : DB) (docId : ℕ) : DB × RemoveToolResult :=
  (deleteDocument db docId, { success := true, removedId := docId })

/-!
Part 2 models the read side: the SQL functions `bm25_score` and
`hybrid_search_documents` of init.sql and the `PostgreSQLSearchService`
methods that call them.

Additional conventions:
* pgvector's cosine distance `embedding <=> query_embedding` and the
  opaque full-text primitives (`ts_rank_cd`, `@@` matching) are carried as
  data on each candidate row, per current query: `dist`, `tf`,
  `matchesTerm` and `englishMatch`.
* `ln` on SQL doubles is an uninterpreted parameter `lnQ : ℚ → ℚ`; every
  theorem quantifies over it, so nothing proved depends on properties of
  the real logarithm.
* `ORDER BY` is modelled as a stable insertion sort; SQL leaves the order
  of score ties unspecified, and the stable sort realises the
  creation-order tie-break singled out by the documentation. -/

/-- One candidate row of the `documents` table as the search SQL sees it for
the current query: `dist` is `embedding <=> query_embedding`, `tf t` is
`(ts_rank_cd(tsvector_content, plainto_tsquery(t)) * 1000)::INTEGER`,
`matchesTerm t` is `tsvector_content @@ plainto_tsquery(t)`, `englishMatch`
is `to_tsvector('english', content) @@ plainto_tsquery('english', query)`
and `contentScore` is the per-row value the `bm25_score(content, $1)` call
of `bm25Search` would produce — a call that matches no function in the
schema, so the column is never actually computed (see `bm25Search`). -/
structure SearchRow where
  id : ℕ
  dist : ℚ
  wordCount : ℕ
  tf : String → ℕ
  matchesTerm : String → Bool
  englishMatch : Bool
  contentScore : ℚ

/-- Document frequency of a term: `SELECT COUNT(*) FROM documents WHERE
tsvector_content @@ plainto_tsquery(term)`. -/
def dfCount (corpus : List SearchRow) (term : String) : ℕ :=
  (corpus.filter (fun d => d.matchesTerm term)).length

/-- The `bm25_score` SQL function of init.sql: for every query term with a
nonzero document frequency, add `idf * normalized_tf` where
`idf = ln((total_docs - df + 0.5) / (df + 0.5))` and
`normalized_tf = tf*(k1+1) / (tf + k1*(1 - b + b*(doc_length/avg_doc_length)))`,
then return `GREATEST(score, 0)`. -/
def bm25_score (lnQ : ℚ → ℚ) (corpus : List SearchRow) (queryTerms : List String)
    (tf : String → ℕ) (docLength : ℕ) (avgDocLength : ℚ) (totalDocs : ℕ)
    (k1 b : ℚ) : ℚ :=
  let score := queryTerms.foldl
    (fun acc term =>
      let df := dfCount corpus term
      if df = 0 then acc
      else
        let tfq : ℚ := (tf term : ℚ)
        let idf := lnQ (((totalDocs : ℚ) - (df : ℚ) + 1 / 2) / ((df : ℚ) + 1 / 2))
        let ntf := (tfq * (k1 + 1)) /
          (tfq + k1 * (1 - b + b * ((docLength : ℚ) / avgDocLength)))
        acc + idf * ntf)
    0
  max score 0

/-- Contribution of a single query term to the unfloored BM25 sum (zero for
a term no document matches). -/
def bm25Contrib (lnQ : ℚ → ℚ) (corpus : List SearchRow) (tf : String → ℕ)
    (docLength : ℕ) (avgDocLength : ℚ) (totalDocs : ℕ) (k1 b : ℚ)
    (term : String) : ℚ :=
  let df := dfCount corpus term
  if df = 0 then 0
  else
    let tfq : ℚ := (tf term : ℚ)
    let idf := lnQ (((totalDocs : ℚ) - (df : ℚ) + 1 / 2) / ((df : ℚ) + 1 / 2))
    let ntf := (tfq * (k1 + 1)) /
      (tfq + k1 * (1 - b + b * ((docLength : ℚ) / avgDocLength)))
    idf * ntf

/-- Modelled from the spec: the lexical scoring that section 4.4 describes,
with the inverse document frequency `ln((N - df + 0.5) / (df + 0.5))`
floored at zero for each term before the per-term contributions are summed.
This is the refinement yardstick for the claim that the floor is applied
per term; the implementation above floors the total instead. -/
def bm25_score_specPerTermFloor (lnQ : ℚ → ℚ) (corpus : List SearchRow)
    (queryTerms : List String) (tf : String → ℕ) (docLength : ℕ)
    (avgDocLength : ℚ) (totalDocs : ℕ) (k1 b : ℚ) : ℚ :=
  (queryTerms.map (fun term =>
    let df := dfCount corpus term
    if df = 0 then 0
    else
      let tfq : ℚ := (tf term : ℚ)
      let idf := max (lnQ (((totalDocs : ℚ) - (df : ℚ) + 1 / 2) / ((df : ℚ) + 1 / 2))) 0
      let ntf := (tfq * (k1 + 1)) /
        (tfq + k1 * (1 - b + b * ((docLength : ℚ) / avgDocLength)))
      idf * ntf)).sum

/-- Stable insertion of `a` into `l`: `a` is placed before the first element
`b` with `before a b`. -/
def insertOrd {α : Type} (before : α → α → Bool) (a : α) : List α → List α
  | [] => [a]
  | b :: bs => if before a b then a :: b :: bs else b :: insertOrd before a bs

/-- Stable sort: an element precedes another iff `before` holds of the pair
or both compare equal and the first came first in the input. -/
def sortOrd {α : Type} (before : α → α → Bool) : List α → List α
  | [] => []
  | a :: as => insertOrd before a (sortOrd before as)

/-- Output row of `hybrid_search_documents`. -/
structure HybridRow where
  id : ℕ
  vector_similarity : ℚ
  bm25Val : ℚ
  hybrid_score : ℚ

/-- The SELECT list of `hybrid_search_documents` for one candidate row:
`vector_similarity = 1 - dist`, the BM25 score against the stored
statistics, and the fused
`hybrid_score = vector_weight * vector_similarity + bm25_weight * LEAST(bm25/10, 1)`. -/
def hybridScoreRow (lnQ : ℚ → ℚ) (corpus : List SearchRow) (stats : StatsTable)
    (queryTerms : List String) (bm25_weight vector_weight : ℚ) (d : SearchRow) :
    HybridRow :=
  let bscore := bm25_score lnQ corpus queryTerms d.tf d.wordCount
    stats.average_document_length stats.total_documents (6 / 5) (3 / 4)
  { id := d.id
    vector_similarity := 1 - d.dist
    bm25Val := bscore
    hybrid_score := vector_weight * (1 - d.dist) + bm25_weight * min (bscore / 10) 1 }

/-- The `hybrid_search_documents` SQL function of init.sql: read the stats
row, tokenize the query text, keep the rows with
`embedding <=> query_embedding < 1 - similarity_threshold`, attach the
scored columns of `hybridScoreRow`, then order by `hybrid_score`
descending and apply the limit. -/
def hybrid_search_documents (lnQ : ℚ → ℚ) (corpus : List SearchRow)
    (stats : StatsTable) (queryText : String) (similarity_threshold : ℚ)
    (bm25_weight vector_weight : ℚ) (result_limit : ℕ) : List HybridRow :=
  let queryTerms := sqlTokenize queryText
  let candidates := corpus.filter (fun d => d.dist < 1 - similarity_threshold)
  let scored := candidates.map
    (hybridScoreRow lnQ corpus stats queryTerms bm25_weight vector_weight)
  (sortOrd (fun a b => b.hybrid_score ≤ a.hybrid_score) scored).take result_limit

/-- A `SearchResult` as assembled by `PostgreSQLSearchService` (fields the
claims read). -/
structure SearchResultTS where
  id : ℕ
  score : ℚ
  bm25Sub : Option ℚ
  vecSub : Option ℚ
  rank : ℕ
  deriving Repr

/-- `PostgreSQLSearchService.vectorSearch`: keep rows with
`1 - (embedding <=> q) > threshold`, order by distance ascending, limit, and
number the rows starting at rank 1 with `score = 1 - dist`. -/
def vectorSearch (corpus : List SearchRow) (lim : ℕ) (threshold : ℚ) :
    List SearchResultTS :=
  let rows :=
    (sortOrd (fun a b => a.dist ≤ b.dist)
      (corpus.filter (fun d => threshold < 1 - d.dist))).take lim
  rows.enum.map (fun p =>
    { id := p.2.id, score := 1 - p.2.dist, bm25Sub := none, vecSub := none,
      rank := p.1 + 1 })

/-- `PostgreSQLSearchService.bm25Search`: its SQL filters on the
english-config tsquery and scores rows with `bm25_score(content, $1)`, but
the schema defines `bm25_score` only in a five-to-seven-argument form
(init.sql), so the two-argument call matches no function: the query always
raises "function does not exist" and the method never returns rows. -/
def bm25Search (corpus : List SearchRow) (lim : ℕ) :
    Except String (List SearchResultTS) :=
  Except.error "function bm25_score(text, text) does not exist"

/-- The option object of `hybridSearch` with its destructuring defaults
`limit = 5`, `threshold = 0.05`, `bm25Weight = 0.3`, `vectorWeight = 0.7`. -/
structure SearchOptsTS where
  queryEmbedding : Option Vec
  limit : Option ℕ
  threshold : Option ℚ
  bm25Weight : Option ℚ
  vectorWeight : Option ℚ

/-- `PostgreSQLSearchService.hybridSearch`: without a usable query embedding
(`!queryEmbedding || queryEmbedding.length === 0`) it logs a warning and
falls back to `bm25Search`, which throws (see there); otherwise it calls
`hybrid_search_documents` — which does exist in the schema — with the
resolved options and returns each row mapped to a result with
`score = hybrid_score` and the two sub-scores attached. -/
def hybridSearch (lnQ : ℚ → ℚ) (corpus : List SearchRow) (stats : StatsTable)
    (queryText : String) (opts : SearchOptsTS) :
    Except String (List SearchResultTS) :=
  let lim := opts.limit.getD 5
  let threshold := opts.threshold.getD (1 / 20)
  let bw := opts.bm25Weight.getD (3 / 10)
  let vw := opts.vectorWeight.getD (7 / 10)
  match opts.queryEmbedding with
  | none => bm25Search corpus lim
  | some emb =>
    if emb.length = 0 then bm25Search corpus lim
    else
      let rows := hybrid_search_documents lnQ corpus stats queryText threshold bw vw lim
      Except.ok (rows.enum.map (fun p =>
        { id := p.2.id, score := p.2.hybrid_score, bm25Sub := some p.2.bm25Val,
          vecSub := some p.2.vector_similarity, rank := p.1 + 1 }))

/-!
Part 3: derived notions the theorems speak about.
-/

/-- The dimension invariant of the store: every persisted embedding has the
384 dimensions of the active provider. -/
def DimOK (db : DB) : Prop :=
  ∀ d ∈ db.docs, d.embedding.length = 384

/-- Inverse document frequency attached to a term by `bm25_score`. -/
def bm25Idf (lnQ : ℚ → ℚ) (corpus : List SearchRow) (totalDocs : ℕ)
    (term : String) : ℚ :=
  lnQ (((totalDocs : ℚ) - (dfCount corpus term : ℚ) + 1 / 2) /
    ((dfCount corpus term : ℚ) + 1 / 2))

/-- Saturated term frequency attached to a term by `bm25_score`. -/
def bm25Ntf (tf : String → ℕ) (docLength : ℕ) (avgDocLength : ℚ) (k1 b : ℚ)
    (term : String) : ℚ :=
  ((tf term : ℚ) * (k1 + 1)) /
    ((tf term : ℚ) + k1 * (1 - b + b * ((docLength : ℚ) / avgDocLength)))

/-- The BM25 score `hybrid_search_documents` computes for a candidate row:
the stored `word_count` of the row together with `average_document_length`
and `total_documents` read from the `bm25_stats` table. -/
def hybridDocBm25 (lnQ : ℚ → ℚ) (corpus : List SearchRow) (stats : StatsTable)
    (queryText : String) (d : SearchRow) : ℚ :=
  bm25_score lnQ corpus (sqlTokenize queryText) d.tf d.wordCount
    stats.average_document_length stats.total_documents (6 / 5) (3 / 4)

/-- A one-document store of the kind the SQL seeding scripts create with an
explicit-id INSERT (the connector itself cannot insert, see `dbInsert`):
document 1 with content "a b", a 384-dimensional zero embedding, and
statistics matching the row, as the AFTER INSERT trigger leaves them. -/
def abDB : DB :=
  { docs := [{ id := 1, title := none, content := "a b", metadata := [], embedding := List.replicate 384 0, wordCount := 2, avgDocLen := 2, createdAt := 1, updatedAt := 1 }],
    stats := { total_documents := 1, average_document_length := 2, statsUpdatedAt := 1 } }

/-- The store produced by updating document 1 of `abDB` to content "xyz"
at time 2 (regenerated zero embedding): a concrete witness value. -/
def xyzDB : DB :=
  { docs := [{ id := 1, title := none, content := "xyz", metadata := [], embedding := List.replicate 384 0, wordCount := 1, avgDocLen := 1, createdAt := 1, updatedAt := 2 }],
    stats := { total_documents := 1, average_document_length := 1, statsUpdatedAt := 2 } }

/-- A three-row corpus for concrete BM25 instances: term "aa" matches two
rows, term "bb" one row, all rows with term frequency 1 and a document
length equal to the average (5). -/
def corpus3 : List SearchRow :=
  [⟨1, 0, 5, fun _ => 1, fun tm => tm = "aa" || tm = "bb", false, 0⟩,
   ⟨2, 0, 5, fun _ => 1, fun tm => tm = "aa", false, 0⟩,
   ⟨3, 0, 5, fun _ => 1, fun _ => false, false, 0⟩]

/-- A one-row corpus whose row matches every term with term frequency 0:
its BM25 score is 0 under any logarithm, giving clean rational values in
concrete hybrid-search instances. -/
def corpus1 : List SearchRow :=
  [⟨1, 0, 5, fun _ => 0, fun _ => true, true, 0⟩]

/-- A one-row corpus whose row matches the term "dogs" with a very large
stored term frequency: its BM25 score against the stored statistics
`(total 10, average length 10)` exceeds the fixed scale constant 10, so the
clamped normalized lexical score saturates at 1. -/
def dogsRow : SearchRow :=
  ⟨1, 0, 10, fun _ => 1000, fun tm => tm = "dogs", true, 0⟩

/-- The singleton corpus holding `dogsRow`. -/
def dogsCorpus : List SearchRow := [dogsRow]

/-- Concrete one-document store used by witness and counterexample inputs. -/
def oneDocDB : DB :=
  { docs := [{ id := 1, title := none, content := "x", metadata := [], embedding := [], wordCount := 1, avgDocLen := 1, createdAt := 0, updatedAt := 0 }],
    stats := { total_documents := 1, average_document_length := 1, statsUpdatedAt := 0 } }

/-!
Theorems.  General-purpose lemmas about the embedding come first, the claim
theorems follow.
-/

theorem mem_insertOrd {α : Type} (before : α → α → Bool) (x : α) (l : List α)
    (a : α) : a ∈ insertOrd before x l ↔ a = x ∨ a ∈ l := by
  induction l with
  | nil => simp [insertOrd]
  | cons b bs ih =>
    simp only [insertOrd]
    split
    · simp
    · simp [ih]; tauto

theorem mem_sortOrd {α : Type} (before : α → α → Bool) (l : List α) (a : α) :
    a ∈ sortOrd before l ↔ a ∈ l := by
  induction l with
  | nil => simp [sortOrd]
  | cons b bs ih => simp [sortOrd, mem_insertOrd, ih]

theorem length_insertOrd {α : Type} (before : α → α → Bool) (x : α)
    (l : List α) : (insertOrd before x l).length = l.length + 1 := by
  induction l with
  | nil => simp [insertOrd]
  | cons b bs ih =>
    simp only [insertOrd]
    split <;> simp [ih]

theorem length_sortOrd {α : Type} (before : α → α → Bool) (l : List α) :
    (sortOrd before l).length = l.length := by
  induction l with
  | nil => rfl
  | cons b bs ih => simp [sortOrd, length_insertOrd, ih]

theorem insertOrd_congr {α : Type} (b1 b2 : α → α → Bool) (x : α) (l : List α)
    (h : ∀ p q : α, b1 p q = b2 p q) : insertOrd b1 x l = insertOrd b2 x l := by
  induction l with
  | nil => rfl
  | cons b bs ih => simp only [insertOrd, h, ih]

theorem sortOrd_congr {α : Type} (b1 b2 : α → α → Bool) (l : List α)
    (h : ∀ p q : α, b1 p q = b2 p q) : sortOrd b1 l = sortOrd b2 l := by
  induction l with
  | nil => rfl
  | cons b bs ih => simp only [sortOrd, ih, insertOrd_congr b1 b2 _ _ h]

theorem insertOrd_map {α β : Type} (f : α → β) (bf : β → β → Bool) (x : α)
    (l : List α) :
    insertOrd bf (f x) (l.map f) = (insertOrd (fun p q => bf (f p) (f q)) x l).map f := by
  induction l with
  | nil => rfl
  | cons b bs ih =>
    simp only [List.map_cons, insertOrd]
    split <;> simp_all

theorem sortOrd_map {α β : Type} (f : α → β) (bf : β → β → Bool) (l : List α) :
    sortOrd bf (l.map f) = (sortOrd (fun p q => bf (f p) (f q)) l).map f := by
  induction l with
  | nil => rfl
  | cons b bs ih => simp only [List.map_cons, sortOrd, ih, insertOrd_map]

theorem foldl_add_eq_sum (f : String → ℚ) (l : List String) (a : ℚ) :
    l.foldl (fun acc term => acc + f term) a = a + (l.map f).sum := by
  induction l generalizing a with
  | nil => simp
  | cons x xs ih => simp [ih]; ring

/-- C10: calling `updateDocument` with a partial document defining none of
title, content, embedding and metadata collects no SET clause, returns
before any SQL statement is issued, and leaves every stored document (its
`updated_at` included) and the corpus statistics untouched: the result is
the unchanged database paired with `false` for "an UPDATE was sent". -/
theorem C10_update_empty_partial_is_noop (embed : String → Vec) (t : ℕ)
    (db : DB) (docId : ℕ) :
    updateDocument embed t db docId
      { title := none, content := none, embedding := none, metadata := none } =
      Except.ok (db, false) := by
  rfl

/-- C9 (amended): removing an id that no stored document carries raises no
error and leaves the stored document set, hence `getDocumentCount`,
unchanged; however the remove tool reports `success := true` rather than
the false/not-found answer the claim states. -/
theorem C9_remove_nonexistent (db : DB) (docId : ℕ)
    (h : docId ∉ db.docs.map StoredDoc.id) :
    removeDocumentTool db docId = (db, { success := true, removedId := docId }) ∧
    getDocumentCount (removeDocumentTool db docId).1 = getDocumentCount db := by
  have hmem : ∀ a ∈ db.docs, a.id ≠ docId := by
    intro a ha hEq
    exact h (hEq ▸ List.mem_map_of_mem StoredDoc.id ha)
  have hfilter : db.docs.filter (fun d => d.id ≠ docId) = db.docs :=
    List.filter_eq_self.mpr (fun a ha => decide_eq_true (hmem a ha))
  refine ⟨?_, ?_⟩
  · unfold removeDocumentTool deleteDocument
    rw [hfilter]
  · unfold removeDocumentTool deleteDocument getDocumentCount
    rw [hfilter]

/-- Witness for C9: a store holding the single document 1 and a removal of
the absent id 5. -/
theorem C9_remove_nonexistent_witness :
    (5 : ℕ) ∉ oneDocDB.docs.map StoredDoc.id ∧
    removeDocumentTool oneDocDB 5 = (oneDocDB, { success := true, removedId := 5 }) :=
  ⟨by decide, (C9_remove_nonexistent oneDocDB 5 (by decide)).1⟩

/-- Counterexample for C9 as stated: the claim demands a false/not-found
answer for an absent id, but the `remove_document` tool answers
`success := true` for the empty store and id 5. -/
theorem C9_counterexample_success_true :
    (removeDocumentTool emptyDB 5).2 = { success := true, removedId := 5 } ∧
    ¬ (removeDocumentTool emptyDB 5).2.success = false := by
  constructor
  · rfl
  · decide

/-- C7: when hybrid mode is requested without a usable query embedding
(`undefined` or the empty vector), the engine does not silently return an
empty or differently-scored result set — it returns no result set at all:
`hybridSearch` takes the warned fallback branch into `bm25Search`, whose
SQL invokes `bm25_score(content, $1)`, a two-argument call matching no
function in the schema (init.sql defines only the five-to-seven-argument
form), so the call raises "function does not exist" and no empty or
substitute-scored result set can ever be silently returned in this mode. -/
theorem C7_no_silent_fallback (lnQ : ℚ → ℚ) (corpus : List SearchRow)
    (stats : StatsTable) (q : String) (opts : SearchOptsTS)
    (h : opts.queryEmbedding = none ∨ opts.queryEmbedding = some []) :
    hybridSearch lnQ corpus stats q opts = bm25Search corpus (opts.limit.getD 5) ∧
    hybridSearch lnQ corpus stats q opts
      = Except.error "function bm25_score(text, text) does not exist" ∧
    ∀ res : List SearchResultTS, hybridSearch lnQ corpus stats q opts ≠ Except.ok res := by
  have h1 : hybridSearch lnQ corpus stats q opts = bm25Search corpus (opts.limit.getD 5) := by
    rcases h with h | h <;> simp [hybridSearch, h]
  refine ⟨h1, h1.trans rfl, ?_⟩
  intro res hres
  rw [h1] at hres
  exact Except.noConfusion hres

/-- Witness for C7: an options object without a query embedding and an
explicit limit of 3. -/
theorem C7_no_silent_fallback_witness :
    hybridSearch (fun x => x) [] ⟨0, 0, 0⟩ "q" ⟨none, some 3, none, none, none⟩
      = Except.error "function bm25_score(text, text) does not exist" :=
  (C7_no_silent_fallback (fun x => x) [] ⟨0, 0, 0⟩ "q"
    ⟨none, some 3, none, none, none⟩ (Or.inl rfl)).2.1


theorem dbInsert_error (db : DB) (t : ℕ) (title : Option String)
    (content : String) (metadata : Meta) (emb : Vec) (db1 : DB) :
    dbInsert db t title content metadata emb ≠ Except.ok db1 := by
  intro h
  unfold dbInsert at h
  split at h <;> exact Except.noConfusion h

theorem addDocument_not_ok (embed : String → Vec) (t : ℕ) (db : DB)
    (d : DocInput) (res : DB × ℕ) : addDocument embed t db d ≠ Except.ok res := by
  intro h
  unfold addDocument at h
  split at h
  · exact Except.noConfusion h
  · split at h
    · exact Except.noConfusion h
    · split at h
      · exact Except.noConfusion h
      · next db1 heq => exact dbInsert_error _ _ _ _ _ _ db1 heq

theorem addDocument_error (embed : String → Vec) (t : ℕ) (db : DB)
    (d : DocInput) : ∃ msg, addDocument embed t db d = Except.error msg := by
  cases h : addDocument embed t db d with
  | error msg => exact ⟨msg, rfl⟩
  | ok res => exact absurd h (addDocument_not_ok embed t db d res)

theorem generateEmbeddingsSvc_ok (embed : String → Vec) (texts : List String)
    (out : List Vec) (h : generateEmbeddingsSvc embed texts = Except.ok out) :
    out = (texts.filter (fun tx => jsTrim tx ≠ "")).map (fun tx => embed (jsTrim tx)) := by
  unfold generateEmbeddingsSvc at h
  split at h
  · next h0 =>
    injection h with h
    subst h0
    simpa using h.symm
  · dsimp only at h
    split at h
    · exact absurd h (by simp)
    · injection h with h
      exact h.symm

theorem runInserts_fail (t : ℕ) (docs : List DocInput) : ∀ (txdb : DB)
    (aborted : Bool) (embs : List Vec),
    runInserts t txdb aborted docs embs
      = (txdb, aborted || docs.any validateDocument, 0, docs.length) := by
  induction docs with
  | nil =>
    intro txdb aborted embs
    simp [runInserts]
  | cons d rest ih =>
    intro txdb aborted embs
    unfold runInserts
    dsimp only
    split
    · next hv =>
      split
      · next hab =>
        rw [ih txdb true _]
        subst hab
        simp [List.any_cons, hv]
      · next hab =>
        split
        · next db1 hins => exact absurd hins (dbInsert_error _ _ _ _ _ _ db1)
        · rw [ih txdb true _]
          have hab0 : aborted = false := by
            revert hab
            cases aborted <;> simp
          subst hab0
          simp [List.any_cons, hv]
    · next hv =>
      rw [ih txdb aborted embs]
      have hv0 : validateDocument d = false := by
        revert hv
        cases validateDocument d <;> simp
      simp [List.any_cons, hv0]

theorem processChunk_fail (embed : String → Vec) (t : ℕ) (db : DB)
    (batch : List DocInput) : processChunk embed t db batch = (db, 0, batch.length) := by
  unfold processChunk
  dsimp only
  split
  · rfl
  · next embs heq =>
    rw [runInserts_fail t batch db false embs]
    split <;> rfl

theorem addDocumentsGo_fail (embed : String → Vec) (t : ℕ) : ∀ (fuel : ℕ)
    (docs : List DocInput) (db : DB), docs.length ≤ fuel →
    addDocumentsGo embed t fuel db docs = (db, 0, docs.length) := by
  intro fuel
  induction fuel with
  | zero =>
    intro docs db hlen
    cases docs with
    | nil => rfl
    | cons d rest => simp at hlen
  | succ n ih =>
    intro docs db hlen
    cases docs with
    | nil => rfl
    | cons d rest =>
      simp only [addDocumentsGo]
      rw [processChunk_fail]
      dsimp only
      rw [ih ((d :: rest).drop 50) db
        (by simp only [List.length_drop]; simp only [List.length_cons] at hlen ⊢; omega)]
      simp only [Prod.mk.injEq, List.length_take, List.length_drop, List.length_cons]
      refine ⟨trivial, trivial, ?_⟩
      omega

theorem addDocuments_eq (embed : String → Vec) (t : ℕ) (db : DB)
    (docs : List DocInput) :
    addDocuments embed t db docs
      = (db, { success := decide (docs.length = 0), imported := 0,
               failed := docs.length }) := by
  unfold addDocuments
  split
  · next hd =>
    subst hd
    rfl
  · dsimp only
    rw [addDocumentsGo_fail embed t docs.length docs db le_rfl]

/-- C1: for every batch ingest the returned aggregate counts are accurate
and chunks are independent.  In the captured program this holds in a
degenerate form: the chunk INSERTs omit the `id` column (`VARCHAR(50)
PRIMARY KEY`, no default, in both schemas), so every row INSERT fails and
with it every chunk transaction — every submitted document is counted as
failed with no partial success, `imported + failed` equals the number of
submitted documents with none uncounted, no chunk affects any other or the
store (which is returned unchanged), and `imported = 0` counts exactly the
documents actually committed, namely none. -/
theorem C1_batch_import_counts (embed : String → Vec) (t : ℕ) (db : DB)
    (docs : List DocInput) :
    (addDocuments embed t db docs).1 = db ∧
    (addDocuments embed t db docs).2.imported = 0 ∧
    (addDocuments embed t db docs).2.failed = docs.length ∧
    (addDocuments embed t db docs).2.imported
        + (addDocuments embed t db docs).2.failed = docs.length := by
  rw [addDocuments_eq]
  exact ⟨rfl, rfl, rfl, Nat.zero_add _⟩


theorem filter_wordCount_map (f : StoredDoc → StoredDoc)
    (hf : ∀ d, (f d).wordCount = d.wordCount) (docs : List StoredDoc) :
    (docs.map f).filter (fun d => 0 < d.wordCount)
      = (docs.filter (fun d => 0 < d.wordCount)).map f := by
  induction docs with
  | nil => rfl
  | cons a l ih =>
    by_cases ha : 0 < a.wordCount
    · simp [List.filter_cons, hf, ha, ih]
    · simp [List.filter_cons, hf, ha, ih]

theorem map_wordCountQ (f : StoredDoc → StoredDoc)
    (hf : ∀ d, (f d).wordCount = d.wordCount) (l : List StoredDoc) :
    (l.map f).map (fun d => ((d.wordCount : ℕ) : ℚ))
      = l.map (fun d => ((d.wordCount : ℕ) : ℚ)) := by
  induction l with
  | nil => rfl
  | cons a l ih => simp [hf, ih]

theorem recomputeStats_map (f : StoredDoc → StoredDoc)
    (hf : ∀ d, (f d).wordCount = d.wordCount) (docs : List StoredDoc) (t : ℕ) :
    recomputeStats (docs.map f) t = recomputeStats docs t := by
  unfold recomputeStats
  dsimp only
  rw [filter_wordCount_map f hf docs, map_wordCountQ f hf]
  simp only [List.length_map]

theorem applyStatsUpdate_stats (db : DB) (t : ℕ) :
    (applyStatsUpdate db t).stats = recomputeStats (applyStatsUpdate db t).docs t := by
  unfold applyStatsUpdate
  dsimp only
  rw [recomputeStats_map]
  intro d
  rfl

theorem fireBm25_stats (db : DB) (docId t : ℕ) :
    (fireBm25Trigger db docId t).stats = recomputeStats (fireBm25Trigger db docId t).docs t := by
  unfold fireBm25Trigger
  exact applyStatsUpdate_stats _ t


theorem dbUpdate_content_stats (db : DB) (t : ℕ) (docId : ℕ)
    (newTitle : Option String) (c : String) (newEmb : Option Vec)
    (newMeta : Option Meta) (db1 : DB)
    (hmem : docId ∈ db.docs.map StoredDoc.id)
    (h : dbUpdate db t docId newTitle (some c) newEmb newMeta = Except.ok db1) :
    db1.stats = recomputeStats db1.docs t := by
  unfold dbUpdate at h
  split at h
  · next hall =>
    exfalso
    obtain ⟨d, hd, hid⟩ := List.mem_map.mp hmem
    have := List.all_eq_true.mp hall d hd
    simp [hid] at this
  · split at h
    · exact absurd h (by simp)
    · rw [if_pos (by simp : Option.isSome (some c) = true)] at h
      injection h with h
      subst h
      exact fireBm25_stats _ _ t

theorem updateDocument_content_stats (embed : String → Vec) (t : ℕ) (db : DB)
    (docId : ℕ) (p : PartialDoc) (c : String) (res : DB × Bool)
    (hc : p.content = some c)
    (hmem : docId ∈ db.docs.map StoredDoc.id)
    (h : updateDocument embed t db docId p = Except.ok res) :
    res.1.stats = recomputeStats res.1.docs t := by
  unfold updateDocument at h
  simp only [hc] at h
  split at h
  · simp at h
  · cases hSvc : generateEmbeddingSvc embed c with
    | error msg => simp only [hSvc] at h; exact Except.noConfusion h
    | ok e =>
      simp only [hSvc] at h
      cases hUpd : dbUpdate db t docId p.title (some c) (some e) p.metadata with
      | error msg => simp only [hUpd] at h; exact Except.noConfusion h
      | ok db1 =>
        simp only [hUpd, Except.ok.injEq] at h
        rw [← h]
        exact dbUpdate_content_stats _ _ _ _ _ _ _ _ hmem hUpd

/-- C4 (amended): the statistics recomputation is synchronous and
trigger-driven — the `documents_bm25_update` trigger fires AFTER INSERT OR
UPDATE OF content, inside the writing transaction, and its body leaves the
stored statistics equal to the recomputation over the current document set;
in particular a successful content-carrying `updateDocument` of an existing
row commits recomputed statistics.  DELETE however fires no trigger:
`deleteDocument` leaves the statistics row exactly as it was, so after a
committed delete the stored statistics can describe a document set that no
longer exists (see the counterexample).  (Inserts issued by the connector
itself never commit at all — their column list omits the defaultless `id`
primary key — so on the insert side only the trigger-level statement is
exercisable, for example by the seeding scripts' explicit-id inserts.) -/
theorem C4_stats_recomputed_on_insert_update_not_delete :
    (∀ (db : DB) (docId t : ℕ),
      (fireBm25Trigger db docId t).stats
        = recomputeStats (fireBm25Trigger db docId t).docs t) ∧
    (∀ (embed : String → Vec) (t : ℕ) (db : DB) (docId : ℕ) (p : PartialDoc)
      (c : String) (res : DB × Bool), p.content = some c →
      docId ∈ db.docs.map StoredDoc.id →
      updateDocument embed t db docId p = Except.ok res →
      res.1.stats = recomputeStats res.1.docs t) ∧
    (∀ (db : DB) (docId : ℕ), (deleteDocument db docId).stats = db.stats) :=
  ⟨fun db docId t => fireBm25_stats db docId t,
   fun embed t db docId p c res hc hmem h =>
     updateDocument_content_stats embed t db docId p c res hc hmem h,
   fun _ _ => rfl⟩

set_option maxRecDepth 4000 in
/-- Witness for C4: firing the trigger on `abDB` leaves its statistics equal
to the recomputation; updating document 1 of `abDB` to "xyz" at time 2
yields `xyzDB`, whose statistics equal the recomputation; deleting from
`abDB` leaves its statistics untouched. -/
theorem C4_stats_recomputed_witness :
    (fireBm25Trigger abDB 1 1).stats = recomputeStats (fireBm25Trigger abDB 1 1).docs 1 ∧
    xyzDB.stats = recomputeStats xyzDB.docs 2 ∧
    (deleteDocument abDB 1).stats = abDB.stats := by
  refine ⟨C4_stats_recomputed_on_insert_update_not_delete.1 abDB 1 1,
   C4_stats_recomputed_on_insert_update_not_delete.2.1 (fun _ => List.replicate 384 0) 2
      abDB 1 ⟨none, some "xyz", none, none⟩ "xyz" (xyzDB, true) rfl (by decide) ?_,
   C4_stats_recomputed_on_insert_update_not_delete.2.2 abDB 1⟩
  have hw : sqlWordCount "xyz" = 1 := by decide
  have hsvc : generateEmbeddingSvc (fun _ => List.replicate 384 0) "xyz" =
      Except.ok (List.replicate 384 0) := by
    simp +decide [generateEmbeddingSvc]
  norm_num +decide [updateDocument, hsvc, dbUpdate, fireBm25Trigger,
    applyDocBm25, applyStatsUpdate, recomputeStats, abDB, xyzDB, hw]

set_option maxRecDepth 4000 in
/-- Counterexample for C4 as stated: in the one-document store `abDB` (a
state the seeding scripts reach with an explicit-id INSERT, its statistics
matching its single document) deleting that document commits an empty
table while the stored statistics still claim one document: the statistics
are not recomputed in the deleting transaction and no longer reflect the
latest committed document set. -/
theorem C4_counterexample_delete_leaves_stale_stats :
    abDB.stats.total_documents = 1 ∧
    (deleteDocument abDB 1).docs.length = 0 ∧
    (deleteDocument abDB 1).stats.total_documents = 1 ∧
    (deleteDocument abDB 1).stats.total_documents
      ≠ (recomputeStats (deleteDocument abDB 1).docs 2).total_documents := by
  refine ⟨rfl, ?_, rfl, ?_⟩
  · rfl
  · decide


theorem fireBm25_embeddings (db : DB) (docId t : ℕ) :
    ∀ d ∈ (fireBm25Trigger db docId t).docs, ∃ d0 ∈ db.docs,
      d.embedding = d0.embedding := by
  intro d hd
  simp only [fireBm25Trigger, applyStatsUpdate, applyDocBm25, List.mem_map] at hd
  obtain ⟨a, ⟨b, hb, rfl⟩, rfl⟩ := hd
  refine ⟨b, hb, ?_⟩
  dsimp only
  split <;> rfl


theorem dbUpdate_ok_dim (db : DB) (t : ℕ) (docId : ℕ) (newTitle : Option String)
    (newContent : Option String) (newEmb : Option Vec) (newMeta : Option Meta)
    (db1 : DB) (hdim : DimOK db)
    (h : dbUpdate db t docId newTitle newContent newEmb newMeta = Except.ok db1) :
    DimOK db1 := by
  unfold dbUpdate at h
  split at h
  · injection h with h
    subst h
    exact hdim
  · split at h
    · exact absurd h (by simp)
    · next hlen =>
      have hinner : DimOK { db with
          docs := db.docs.map (dbUpdateRow t docId newTitle newContent newEmb newMeta) } := by
        intro d hd
        simp only [List.mem_map] at hd
        obtain ⟨b, hb, rfl⟩ := hd
        unfold dbUpdateRow
        split
        · dsimp only
          cases hne : newEmb with
          | some e =>
            rw [hne] at hlen
            simp only [Option.getD_some] at hlen ⊢
            omega
          | none => simpa using hdim b hb
        · exact hdim b hb
      split at h
      · injection h with h
        subst h
        intro d hd
        obtain ⟨d0, hd0, heq⟩ := fireBm25_embeddings _ _ _ d hd
        rw [heq]
        exact hinner d0 hd0
      · injection h with h
        subst h
        exact hinner

theorem updateDocument_ok_dim (embed : String → Vec) (t : ℕ) (db : DB)
    (docId : ℕ) (p : PartialDoc) (res : DB × Bool) (hdim : DimOK db)
    (h : updateDocument embed t db docId p = Except.ok res) :
    DimOK res.1 := by
  unfold updateDocument at h
  cases hc : p.content with
  | some c =>
    simp only [hc] at h
    split at h
    · exact absurd h (by simp)
    · cases hSvc : generateEmbeddingSvc embed c with
      | error msg => simp only [hSvc] at h; exact Except.noConfusion h
      | ok e =>
        simp only [hSvc] at h
        cases hUpd : dbUpdate db t docId p.title (some c) (some e) p.metadata with
        | error msg => simp only [hUpd] at h; exact Except.noConfusion h
        | ok db1 =>
          simp only [hUpd, Except.ok.injEq] at h
          rw [← h]
          exact dbUpdate_ok_dim _ _ _ _ _ _ _ _ hdim hUpd
  | none =>
    simp only [hc] at h
    cases hE : p.embedding with
    | some e =>
      simp only [hE] at h
      cases hUpd : dbUpdate db t docId p.title none (some e) p.metadata with
      | error msg => simp only [hUpd] at h; exact Except.noConfusion h
      | ok db1 =>
        simp only [hUpd, Except.ok.injEq] at h
        rw [← h]
        exact dbUpdate_ok_dim _ _ _ _ _ _ _ _ hdim hUpd
    | none =>
      simp only [hE] at h
      split at h
      · injection h with h
        rw [← h]
        exact hdim
      · cases hUpd : dbUpdate db t docId p.title none none p.metadata with
        | error msg => simp only [hUpd] at h; exact Except.noConfusion h
        | ok db1 =>
          simp only [hUpd, Except.ok.injEq] at h
          rw [← h]
          exact dbUpdate_ok_dim _ _ _ _ _ _ _ _ hdim hUpd


theorem dbUpdate_wrong_dim (db : DB) (t : ℕ) (docId : ℕ) (newTitle : Option String)
    (newContent : Option String) (e : Vec) (newMeta : Option Meta)
    (hmem : docId ∈ db.docs.map StoredDoc.id) (hlen : e.length ≠ 384) :
    dbUpdate db t docId newTitle newContent (some e) newMeta =
      Except.error "expected 384 dimensions" := by
  have h1 : ¬ (db.docs.all (fun d => d.id ≠ docId)) = true := by
    intro hall
    obtain ⟨d, hd, hid⟩ := List.mem_map.mp hmem
    have := List.all_eq_true.mp hall d hd
    simp [hid] at this
  unfold dbUpdate
  rw [if_neg h1]
  simp only [Option.getD_some]
  rw [if_pos hlen]

theorem updateDocument_wrong_dim (embed : String → Vec) (t : ℕ) (db : DB)
    (docId : ℕ) (p : PartialDoc) (e : Vec) (hc : p.content = none)
    (he : p.embedding = some e) (hmem : docId ∈ db.docs.map StoredDoc.id)
    (hlen : e.length ≠ 384) :
    ∃ msg, updateDocument embed t db docId p = Except.error msg := by
  unfold updateDocument
  rw [hc, he]
  dsimp only
  rw [dbUpdate_wrong_dim db t docId p.title none e p.metadata hmem hlen]
  exact ⟨_, rfl⟩

/-- C5: a write carrying an embedding whose length differs from the
provider's 384 dimensions is rejected with an error — on the single-add and
update paths the thrown error leaves the store untouched (no state escapes
an `Except.error`), and on every path the dimension invariant is preserved:
every document persisted by `addDocument`, `addDocuments`, `updateDocument`
or surviving `deleteDocument` has an embedding of length exactly 384, i.e.
embeddings are never silently truncated or padded. -/
theorem C5_dimension_invariant :
    (∀ (embed : String → Vec) (t : ℕ) (db : DB) (d : DocInput) (e : Vec),
      d.embedding = some e → e.length ≠ 384 →
      ∃ msg, addDocument embed t db d = Except.error msg) ∧
    (∀ (embed : String → Vec) (t : ℕ) (db : DB) (docId : ℕ) (p : PartialDoc)
      (e : Vec), p.content = none → p.embedding = some e →
      docId ∈ db.docs.map StoredDoc.id → e.length ≠ 384 →
      ∃ msg, updateDocument embed t db docId p = Except.error msg) ∧
    (∀ (embed : String → Vec) (t : ℕ) (db : DB) (d : DocInput) (res : DB × ℕ),
      DimOK db → addDocument embed t db d = Except.ok res → DimOK res.1) ∧
    (∀ (embed : String → Vec) (t : ℕ) (db : DB) (docs : List DocInput),
      DimOK db → DimOK (addDocuments embed t db docs).1) ∧
    (∀ (embed : String → Vec) (t : ℕ) (db : DB) (docId : ℕ) (p : PartialDoc)
      (res : DB × Bool), DimOK db → updateDocument embed t db docId p = Except.ok res →
      DimOK res.1) ∧
    (∀ (db : DB) (docId : ℕ), DimOK db → DimOK (deleteDocument db docId)) := by
  refine ⟨?_, ?_, ?_, ?_, ?_, ?_⟩
  · exact fun embed t db d e _ _ => addDocument_error embed t db d
  · exact fun embed t db docId p e hc he hmem hlen =>
      updateDocument_wrong_dim embed t db docId p e hc he hmem hlen
  · exact fun embed t db d res _ h => absurd h (addDocument_not_ok embed t db d res)
  · intro embed t db docs hdim
    rw [addDocuments_eq]
    exact hdim
  · exact fun embed t db docId p res hdim h => updateDocument_ok_dim embed t db docId p res hdim h
  · intro db docId hdim d hd
    exact hdim d (List.mem_of_mem_filter hd)

set_option maxRecDepth 4000 in
/-- Witness for C5: a one-dimensional embedding is rejected on add (empty
store) and on update (store `abDB`, which satisfies the invariant), and the
invariant survives adding a valid document to the empty store, a batch
ingest, and a delete. -/
theorem C5_dimension_invariant_witness :
    (∃ msg, addDocument (fun _ => []) 0 emptyDB ⟨none, "a", none, some [1]⟩
        = Except.error msg) ∧
    (∃ msg, updateDocument (fun _ => []) 0 abDB 1 ⟨none, none, some [1], none⟩
        = Except.error msg) ∧
    DimOK (addDocuments (fun _ => List.replicate 384 0) 0 emptyDB
      [⟨none, "a", none, none⟩]).1 ∧
    DimOK (deleteDocument abDB 1) :=
  ⟨C5_dimension_invariant.1 (fun _ => []) 0 emptyDB ⟨none, "a", none, some [1]⟩ [1]
      rfl (by decide),
   C5_dimension_invariant.2.1 (fun _ => []) 0 abDB 1 ⟨none, none, some [1], none⟩ [1]
      rfl rfl (by decide) (by decide),
   C5_dimension_invariant.2.2.2.1 (fun _ => List.replicate 384 0) 0 emptyDB
      [⟨none, "a", none, none⟩] (by intro d hd; simp [emptyDB] at hd),
   C5_dimension_invariant.2.2.2.2.2 abDB 1
      (by intro d hd; simp only [abDB, List.mem_singleton] at hd; subst hd
          simp [List.length_replicate])⟩

/-- C6: the batch embedding path filters blank texts and keeps positional
correspondence — a successful `generateEmbeddings` returns exactly the
embeddings of the non-blank inputs in order, the i-th output belonging to
the i-th non-blank input — and consequently every document that a batch
ingest persists either carries the embedding generated from its own content
(the pipeline embeds the trimmed text) or the embedding the caller supplied
on a submitted document with that very content; no persisted row receives
an embedding generated from another document's content.  (In the captured
program the batch ingest in fact persists nothing — its INSERT omits the
defaultless `id` primary key — so the persistence conjunct holds with
nothing to check and the alignment conjunct carries the live content of
the claim.) -/
theorem C6_batch_embedding_alignment :
    (∀ (embed : String → Vec) (texts : List String) (out : List Vec),
      generateEmbeddingsSvc embed texts = Except.ok out →
      out = (texts.filter (fun tx => jsTrim tx ≠ "")).map (fun tx => embed (jsTrim tx))) ∧
    (∀ (embed : String → Vec) (t : ℕ) (db : DB) (docs : List DocInput) (i : ℕ)
      (row : StoredDoc), db.docs.length ≤ i →
      (addDocuments embed t db docs).1.docs.get? i = some row →
      row.embedding = embed (jsTrim row.content) ∨
        ∃ d ∈ docs, d.embedding = some row.embedding ∧ d.content = row.content) := by
  constructor
  · exact fun embed texts out h => generateEmbeddingsSvc_ok embed texts out h
  · intro embed t db docs i row hi hget
    rw [addDocuments_eq] at hget
    dsimp only at hget
    rw [List.get?_eq_none.mpr hi] at hget
    exact Option.noConfusion hget

/-- Witness for C6: batch-embedding the texts "hi" and a blank " " succeeds
and returns exactly the one embedding of the non-blank "hi" — the alignment
conjunct instantiated at a concrete pipeline, its success hypothesis
discharged by evaluation. -/
theorem C6_batch_embedding_alignment_witness :
    ([[]] : List Vec) = ((["hi", " "].filter (fun tx => jsTrim tx ≠ "")).map
      (fun tx => (fun _ => ([] : Vec)) (jsTrim tx))) :=
  C6_batch_embedding_alignment.1 (fun _ => []) ["hi", " "] [[]] (by rfl)


theorem enum_snd_mem {α : Type} (l : List α) (p : ℕ × α) (hp : p ∈ l.enum) :
    p.2 ∈ l := by
  have h := List.enum_map_snd l
  rw [← h]
  exact List.mem_map_of_mem Prod.snd hp

theorem enum_map_map {α β γ : Type} (l : List α) (f : ℕ × α → β) (g : β → γ)
    (h : α → γ) (hfg : ∀ p, g (f p) = h p.2) :
    (l.enum.map f).map g = l.map h := by
  rw [List.map_map]
  have h2 : (g ∘ f) = fun p => h p.2 := funext hfg
  rw [h2, show (fun p : ℕ × α => h p.2) = h ∘ Prod.snd from rfl, ← List.map_map,
    List.enum_map_snd]

theorem hybrid_search_mem (lnQ : ℚ → ℚ) (corpus : List SearchRow)
    (stats : StatsTable) (q : String) (thr bw vw : ℚ) (lim : ℕ) (r : HybridRow)
    (hr : r ∈ hybrid_search_documents lnQ corpus stats q thr bw vw lim) :
    ∃ d ∈ corpus, d.dist < 1 - thr ∧
      r.id = d.id ∧ r.vector_similarity = 1 - d.dist ∧
      r.bm25Val = hybridDocBm25 lnQ corpus stats q d ∧
      r.hybrid_score = vw * (1 - d.dist) + bw * min (hybridDocBm25 lnQ corpus stats q d / 10) 1 := by
  unfold hybrid_search_documents at hr
  dsimp only at hr
  have hr2 := (mem_sortOrd _ _ _).mp (List.take_subset _ _ hr)
  obtain ⟨d, hd, rfl⟩ := List.mem_map.mp hr2
  obtain ⟨hdc, hdt⟩ := List.mem_filter.mp hd
  exact ⟨d, hdc, by simpa using hdt, rfl, rfl, rfl, rfl⟩

theorem bm25Contrib_eq (lnQ : ℚ → ℚ) (corpus : List SearchRow) (tf : String → ℕ)
    (docLength : ℕ) (avgDocLength : ℚ) (totalDocs : ℕ) (k1 b : ℚ) (term : String) :
    bm25Contrib lnQ corpus tf docLength avgDocLength totalDocs k1 b term =
      if dfCount corpus term = 0 then 0
      else bm25Idf lnQ corpus totalDocs term
        * bm25Ntf tf docLength avgDocLength k1 b term := by
  rfl

theorem bm25_score_eq_max_sum (lnQ : ℚ → ℚ) (corpus : List SearchRow)
    (queryTerms : List String) (tf : String → ℕ) (docLength : ℕ)
    (avgDocLength : ℚ) (totalDocs : ℕ) (k1 b : ℚ) :
    bm25_score lnQ corpus queryTerms tf docLength avgDocLength totalDocs k1 b =
      max ((queryTerms.map
        (bm25Contrib lnQ corpus tf docLength avgDocLength totalDocs k1 b)).sum) 0 := by
  unfold bm25_score
  dsimp only
  congr 1
  have key : ∀ (terms : List String) (a : ℚ),
      terms.foldl (fun acc term =>
        if dfCount corpus term = 0 then acc
        else acc +
          lnQ (((totalDocs : ℚ) - (dfCount corpus term : ℚ) + 1 / 2) /
            ((dfCount corpus term : ℚ) + 1 / 2)) *
          (((tf term : ℚ) * (k1 + 1)) /
            ((tf term : ℚ) + k1 * (1 - b + b * ((docLength : ℚ) / avgDocLength))))) a
      = a + (terms.map
          (bm25Contrib lnQ corpus tf docLength avgDocLength totalDocs k1 b)).sum := by
    intro terms
    induction terms with
    | nil => intro a; simp
    | cons x xs ih =>
      intro a
      simp only [List.foldl_cons, List.map_cons, List.sum_cons]
      rw [ih, bm25Contrib_eq]
      unfold bm25Idf bm25Ntf
      split <;> ring
  rw [key]
  ring

/-- C3 (amended): the BM25 scoring function computes, for each query term
with nonzero document frequency, the contribution `idf * normalized_tf`
with `idf = ln((N - df + 0.5)/(df + 0.5))` and the k1/b-saturated term
frequency using the document length relative to the supplied average; the
zero floor is applied to the **total** (`GREATEST(score, 0)`), not to each
term's idf as the claim states.  `hybrid_search_documents` passes
`average_document_length` and `total_documents` read from the stored
`bm25_stats` row, not values recomputed at query time.  When every term's
idf and saturated term frequency are nonnegative, the implemented score
coincides with the per-term-floored spec reading (the refutation lies in
the counterexample, where a negative-idf term is absorbed by a positive
one). -/
theorem C3_bm25_total_floor_and_stored_stats :
    (∀ (lnQ : ℚ → ℚ) (corpus : List SearchRow) (queryTerms : List String)
      (tf : String → ℕ) (docLength : ℕ) (avgDocLength : ℚ) (totalDocs : ℕ)
      (k1 b : ℚ),
      bm25_score lnQ corpus queryTerms tf docLength avgDocLength totalDocs k1 b =
        max ((queryTerms.map
          (bm25Contrib lnQ corpus tf docLength avgDocLength totalDocs k1 b)).sum) 0) ∧
    (∀ (lnQ : ℚ → ℚ) (corpus : List SearchRow) (stats : StatsTable) (q : String)
      (thr bw vw : ℚ) (lim : ℕ) (r : HybridRow),
      r ∈ hybrid_search_documents lnQ corpus stats q thr bw vw lim →
      ∃ d ∈ corpus, r.bm25Val = bm25_score lnQ corpus (sqlTokenize q) d.tf
        d.wordCount stats.average_document_length stats.total_documents
        (6 / 5) (3 / 4)) ∧
    (∀ (lnQ : ℚ → ℚ) (corpus : List SearchRow) (queryTerms : List String)
      (tf : String → ℕ) (docLength : ℕ) (avgDocLength : ℚ) (totalDocs : ℕ)
      (k1 b : ℚ),
      (∀ term ∈ queryTerms, 0 ≤ bm25Idf lnQ corpus totalDocs term ∧
        0 ≤ bm25Ntf tf docLength avgDocLength k1 b term) →
      bm25_score lnQ corpus queryTerms tf docLength avgDocLength totalDocs k1 b =
        bm25_score_specPerTermFloor lnQ corpus queryTerms tf docLength
          avgDocLength totalDocs k1 b) := by
  refine ⟨bm25_score_eq_max_sum, ?_, ?_⟩
  · intro lnQ corpus stats q thr bw vw lim r hr
    obtain ⟨d, hd, _, _, _, hb, _⟩ := hybrid_search_mem lnQ corpus stats q thr bw vw lim r hr
    exact ⟨d, hd, hb⟩
  · intro lnQ corpus queryTerms tf docLength avgDocLength totalDocs k1 b hpos
    rw [bm25_score_eq_max_sum]
    unfold bm25_score_specPerTermFloor
    have hmapeq : queryTerms.map
        (bm25Contrib lnQ corpus tf docLength avgDocLength totalDocs k1 b) =
        queryTerms.map (fun term =>
          if dfCount corpus term = 0 then 0
          else max (bm25Idf lnQ corpus totalDocs term) 0
            * bm25Ntf tf docLength avgDocLength k1 b term) := by
      apply List.map_congr_left
      intro term hterm
      rw [bm25Contrib_eq]
      obtain ⟨hidf, _⟩ := hpos term hterm
      rw [max_eq_left hidf]
    have hnonneg : ∀ x ∈ queryTerms.map
        (bm25Contrib lnQ corpus tf docLength avgDocLength totalDocs k1 b), 0 ≤ x := by
      intro x hx
      obtain ⟨term, hterm, rfl⟩ := List.mem_map.mp hx
      rw [bm25Contrib_eq]
      obtain ⟨hidf, hntf⟩ := hpos term hterm
      split
      · exact le_refl 0
      · exact mul_nonneg hidf hntf
    rw [max_eq_left (List.sum_nonneg hnonneg)]
    rw [hmapeq]
    rfl

/-- Counterexample for C3 as stated: over `corpus3` with stored total 3,
query terms "aa" (df 2, idf sign negative: its argument 3/5 lies below 1)
and "bb" (df 1, idf positive), unit term frequencies and document length
equal to the average, the implemented score floors only the total:
it returns `max((-2/5) + 2/3, 0) = 4/15` (instantiating ln with the
sign-faithful x - 1), while flooring the idf per term as the claim states
would return `0 + 2/3 = 2/3`. -/
theorem C3_counterexample_total_floor_not_per_term :
    bm25_score (fun x => x - 1) corpus3 ["aa", "bb"] (fun _ => 1) 5 5 3
        (6 / 5) (3 / 4) = 4 / 15 ∧
    bm25_score_specPerTermFloor (fun x => x - 1) corpus3 ["aa", "bb"]
        (fun _ => 1) 5 5 3 (6 / 5) (3 / 4) = 2 / 3 ∧
    (4 : ℚ) / 15 ≠ 2 / 3 := by
  have hdf1 : dfCount corpus3 "aa" = 2 := by decide
  have hdf2 : dfCount corpus3 "bb" = 1 := by decide
  refine ⟨?_, ?_, by norm_num⟩
  · rw [bm25_score_eq_max_sum]
    simp only [List.map_cons, List.map_nil, List.sum_cons, List.sum_nil,
      bm25Contrib_eq, bm25Idf, bm25Ntf, hdf1, hdf2]
    norm_num [max_def]
  · unfold bm25_score_specPerTermFloor
    simp only [List.map_cons, List.map_nil, List.sum_cons, List.sum_nil, hdf1, hdf2]
    norm_num [max_def]

/-- Witness for C3: the hybrid search over `corpus1` (one candidate, zero
term frequency, stored stats `(1, 5)`) returns the row `⟨1, 1, 0, 1⟩`,
whose BM25 column is computed from the stored statistics; and on the
all-nonnegative query ["bb"] over `corpus3` the implemented score equals
the per-term-floored reading. -/
theorem C3_bm25_witness :
    (∃ d ∈ corpus1, (⟨1, 1, 0, 1⟩ : HybridRow).bm25Val =
      bm25_score (fun x => x - 1) corpus1 (sqlTokenize "aa") d.tf d.wordCount
        (5 : ℚ) 1 (6 / 5) (3 / 4)) ∧
    bm25_score (fun x => x - 1) corpus3 ["bb"] (fun _ => 1) 5 5 3 (6 / 5) (3 / 4) =
      bm25_score_specPerTermFloor (fun x => x - 1) corpus3 ["bb"] (fun _ => 1)
        5 5 3 (6 / 5) (3 / 4) := by
  constructor
  · have hdf : dfCount [(⟨1, 0, 5, fun _ => 0, fun _ => true, true, 0⟩ : SearchRow)]
        "aa" = 1 := by decide
    have htok : sqlTokenize "aa" = ["aa"] := by decide
    have hmem : (⟨1, 1, 0, 1⟩ : HybridRow) ∈
        hybrid_search_documents (fun x => x - 1) corpus1 ⟨1, 5, 0⟩ "aa" (1 / 20) 1 1 5 := by
      have heval : hybrid_search_documents (fun x => x - 1) corpus1 ⟨1, 5, 0⟩ "aa"
          (1 / 20) 1 1 5 = [⟨1, 1, 0, 1⟩] := by
        unfold hybrid_search_documents
        rw [htok]
        simp only [corpus1, bm25_score_eq_max_sum]
        norm_num [hybridScoreRow, bm25_score_eq_max_sum, List.filter_cons,
          List.filter_nil, decide_eq_true_eq,
          bm25Contrib_eq, bm25Idf, bm25Ntf, hdf, List.map_cons, List.map_nil,
          List.sum_cons, List.sum_nil, sortOrd, insertOrd, List.take,
          max_def, min_def]
      rw [heval]
      exact List.mem_singleton.mpr rfl
    have happ := C3_bm25_total_floor_and_stored_stats.2.1 (fun x => x - 1) corpus1
      ⟨1, 5, 0⟩ "aa" (1 / 20) 1 1 5 ⟨1, 1, 0, 1⟩ hmem
    exact happ
  · refine C3_bm25_total_floor_and_stored_stats.2.2 (fun x => x - 1) corpus3 ["bb"]
      (fun _ => 1) 5 5 3 (6 / 5) (3 / 4) ?_
    intro term hterm
    have : term = "bb" := by simpa using hterm
    subst this
    have hdf2 : dfCount corpus3 "bb" = 1 := by decide
    constructor
    · norm_num [bm25Idf, hdf2]
    · norm_num [bm25Ntf]

theorem hybridDocBm25_nonneg (lnQ : ℚ → ℚ) (corpus : List SearchRow)
    (stats : StatsTable) (q : String) (d : SearchRow) :
    0 ≤ hybridDocBm25 lnQ corpus stats q d := by
  unfold hybridDocBm25 bm25_score
  dsimp only
  exact le_max_right _ _

/-- C2: with a supplied (non-empty) query embedding, hybrid search runs the
schema's `hybrid_search_documents` and returns its rows (this path never
throws): candidates are pre-filtered on the vector-similarity threshold
before fusion — every returned result stems from a corpus row with
`dist < 1 - threshold`, i.e. vector similarity strictly above the
threshold, so a candidate below the threshold is excluded no matter its
lexical score — no filter is applied to the fused score (whenever the
candidate set fits the limit, every above-threshold candidate is returned
regardless of its fused value), and every returned fused score equals
`vectorWeight * vectorSimilarity + bm25Weight * min(bm25/10, 1)` with the
lexical factor clamped to [0, 1] and the caller's weights used as
independent, unrenormalized multipliers. -/
theorem C2_hybrid_filter_then_fuse (lnQ : ℚ → ℚ) (corpus : List SearchRow)
    (stats : StatsTable) (q : String) (opts : SearchOptsTS) (emb : Vec)
    (hqe : opts.queryEmbedding = some emb) (hne : emb ≠ []) :
    ∃ res, hybridSearch lnQ corpus stats q opts = Except.ok res ∧
      (∀ r ∈ res,
        ∃ d ∈ corpus,
          d.dist < 1 - opts.threshold.getD (1 / 20) ∧
          r.vecSub = some (1 - d.dist) ∧
          r.bm25Sub = some (hybridDocBm25 lnQ corpus stats q d) ∧
          0 ≤ min (hybridDocBm25 lnQ corpus stats q d / 10) 1 ∧
          min (hybridDocBm25 lnQ corpus stats q d / 10) 1 ≤ 1 ∧
          r.score = opts.vectorWeight.getD (7 / 10) * (1 - d.dist)
            + opts.bm25Weight.getD (3 / 10) * min (hybridDocBm25 lnQ corpus stats q d / 10) 1) ∧
      ((corpus.filter (fun d => d.dist < 1 - opts.threshold.getD (1 / 20))).length
          ≤ opts.limit.getD 5 →
        ∀ d ∈ corpus, d.dist < 1 - opts.threshold.getD (1 / 20) →
          d.id ∈ res.map (fun r => r.id)) := by
  have hlen0 : ¬ emb.length = 0 := fun h0 => hne (List.length_eq_zero.mp h0)
  refine ⟨((hybrid_search_documents lnQ corpus stats q (opts.threshold.getD (1 / 20))
      (opts.bm25Weight.getD (3 / 10)) (opts.vectorWeight.getD (7 / 10))
      (opts.limit.getD 5)).enum.map (fun p =>
        (⟨p.2.id, p.2.hybrid_score, some p.2.bm25Val, some p.2.vector_similarity, p.1 + 1⟩ : SearchResultTS))),
    ?_, ?_, ?_⟩
  · unfold hybridSearch
    simp only [hqe]
    rw [if_neg hlen0]
  · intro r hr
    obtain ⟨p, hp, rfl⟩ := List.mem_map.mp hr
    have hrow := enum_snd_mem _ _ hp
    obtain ⟨d, hd, hlt, _, hvec, hbm, hsc⟩ :=
      hybrid_search_mem lnQ corpus stats q (opts.threshold.getD (1 / 20))
        (opts.bm25Weight.getD (3 / 10)) (opts.vectorWeight.getD (7 / 10))
        (opts.limit.getD 5) p.2 hrow
    have h0 : 0 ≤ hybridDocBm25 lnQ corpus stats q d := hybridDocBm25_nonneg _ _ _ _ _
    refine ⟨d, hd, hlt, ?_, ?_, ?_, ?_, ?_⟩
    · dsimp only
      rw [hvec]
    · dsimp only
      rw [hbm]
    · exact le_min (div_nonneg h0 (by norm_num)) zero_le_one
    · exact min_le_right _ _
    · dsimp only
      rw [hsc]
  · intro hlen d hd hlt
    rw [List.map_map]
    rw [show ((fun r : SearchResultTS => r.id) ∘ (fun p : ℕ × HybridRow =>
        (⟨p.2.id, p.2.hybrid_score, some p.2.bm25Val, some p.2.vector_similarity, p.1 + 1⟩ : SearchResultTS)))
        = (fun h2 : HybridRow => h2.id) ∘ Prod.snd from rfl]
    rw [← List.map_map, List.enum_map_snd]
    unfold hybrid_search_documents
    dsimp only
    rw [List.take_of_length_le]
    · refine List.mem_map.mpr ⟨_, (mem_sortOrd _ _ _).mpr
        (List.mem_map_of_mem _ (List.mem_filter.mpr ⟨hd, by simpa using hlt⟩)), rfl⟩
    · rw [length_sortOrd, List.length_map]
      exact hlen

/-- Witness for C2: the one-row corpus `corpus1` queried with the embedding
[1, 0], limit 5 and the default thresholds and weights. -/
theorem C2_hybrid_filter_then_fuse_witness :
    ∃ res, hybridSearch (fun x => x - 1) corpus1 ⟨1, 5, 0⟩ "aa"
        ⟨some [1, 0], some 5, none, none, none⟩ = Except.ok res ∧
      (∀ r ∈ res,
        ∃ d ∈ corpus1,
          d.dist < 1 - (1 : ℚ) / 20 ∧
          r.vecSub = some (1 - d.dist) ∧
          r.bm25Sub = some (hybridDocBm25 (fun x => x - 1) corpus1 ⟨1, 5, 0⟩ "aa" d) ∧
          0 ≤ min (hybridDocBm25 (fun x => x - 1) corpus1 ⟨1, 5, 0⟩ "aa" d / 10) 1 ∧
          min (hybridDocBm25 (fun x => x - 1) corpus1 ⟨1, 5, 0⟩ "aa" d / 10) 1 ≤ 1 ∧
          r.score = (7 : ℚ) / 10 * (1 - d.dist)
            + 3 / 10 * min (hybridDocBm25 (fun x => x - 1) corpus1 ⟨1, 5, 0⟩ "aa" d / 10) 1) ∧
      ((corpus1.filter (fun d => d.dist < 1 - (1 : ℚ) / 20)).length ≤ 5 →
        ∀ d ∈ corpus1, d.dist < 1 - (1 : ℚ) / 20 →
          d.id ∈ res.map (fun r => r.id)) :=
  C2_hybrid_filter_then_fuse (fun x => x - 1) corpus1 ⟨1, 5, 0⟩ "aa"
    ⟨some [1, 0], some 5, none, none, none⟩ [1, 0] rfl (by decide)


/-- C8: with a supplied non-empty query embedding (a path on which
`hybridSearch` returns rather than throws): (a) options with
`bm25Weight = 0` and a positive resolved `vectorWeight` make `hybridSearch`
return exactly the ids of `vectorSearch` at the same resolved threshold and
limit, in the same order (the comparator degenerates to distance order and
the two threshold tests agree); (b) options with `vectorWeight = 0` make
every returned fused score equal to the resolved `bm25Weight` times the
clamped normalized lexical score `LEAST(bm25/10, 1)` of the returned
document. -/
theorem C8_zero_weight_degenerations (lnQ : ℚ → ℚ) (corpus : List SearchRow)
    (stats : StatsTable) (qt : String) (opts : SearchOptsTS) (emb : Vec)
    (hqe : opts.queryEmbedding = some emb) (hne : emb ≠ []) :
    (opts.bm25Weight = some 0 → 0 < opts.vectorWeight.getD (7 / 10) →
      ∃ res, hybridSearch lnQ corpus stats qt opts = Except.ok res ∧
        res.map (fun r => r.id) =
          (vectorSearch corpus (opts.limit.getD 5)
            (opts.threshold.getD (1 / 20))).map (fun r => r.id)) ∧
    (opts.vectorWeight = some 0 →
      ∃ res, hybridSearch lnQ corpus stats qt opts = Except.ok res ∧
        ∀ r ∈ res, ∃ d ∈ corpus, r.id = d.id ∧
          r.score = opts.bm25Weight.getD (3 / 10) *
            min (hybridDocBm25 lnQ corpus stats qt d / 10) 1) := by
  have hlen0 : ¬ emb.length = 0 := fun h0 => hne (List.length_eq_zero.mp h0)
  have hres : hybridSearch lnQ corpus stats qt opts = Except.ok
      ((hybrid_search_documents lnQ corpus stats qt (opts.threshold.getD (1 / 20))
        (opts.bm25Weight.getD (3 / 10)) (opts.vectorWeight.getD (7 / 10))
        (opts.limit.getD 5)).enum.map (fun p =>
          (⟨p.2.id, p.2.hybrid_score, some p.2.bm25Val, some p.2.vector_similarity, p.1 + 1⟩ : SearchResultTS))) := by
    unfold hybridSearch
    simp only [hqe]
    rw [if_neg hlen0]
  constructor
  · intro hbw hvw
    refine ⟨_, hres, ?_⟩
    rw [List.map_map]
    rw [show ((fun r : SearchResultTS => r.id) ∘ (fun p : ℕ × HybridRow =>
        (⟨p.2.id, p.2.hybrid_score, some p.2.bm25Val, some p.2.vector_similarity, p.1 + 1⟩ : SearchResultTS)))
        = (fun h2 : HybridRow => h2.id) ∘ Prod.snd from rfl]
    rw [← List.map_map, List.enum_map_snd]
    unfold vectorSearch
    dsimp only
    rw [List.map_map]
    rw [show ((fun r : SearchResultTS => r.id) ∘ (fun p : ℕ × SearchRow =>
        (⟨p.2.id, 1 - p.2.dist, none, none, p.1 + 1⟩ : SearchResultTS)))
        = (fun d : SearchRow => d.id) ∘ Prod.snd from rfl]
    rw [← List.map_map, List.enum_map_snd]
    unfold hybrid_search_documents
    dsimp only
    simp only [hbw, Option.getD_some]
    rw [sortOrd_map]
    rw [← List.map_take, List.map_map]
    rw [show ((fun h2 : HybridRow => h2.id) ∘
        hybridScoreRow lnQ corpus stats (sqlTokenize qt) 0 (opts.vectorWeight.getD (7 / 10)))
        = (fun d : SearchRow => d.id) from rfl]
    have hfeq : corpus.filter (fun d => decide (d.dist < 1 - opts.threshold.getD (1 / 20)))
        = corpus.filter (fun d => decide (opts.threshold.getD (1 / 20) < 1 - d.dist)) := by
      refine List.filter_congr ?_
      intro d _
      simp only [decide_eq_decide]
      constructor <;> intro h <;> linarith
    rw [hfeq]
    have hcmp : ∀ a b : SearchRow,
        (decide ((hybridScoreRow lnQ corpus stats (sqlTokenize qt) 0
            (opts.vectorWeight.getD (7 / 10)) b).hybrid_score ≤
          (hybridScoreRow lnQ corpus stats (sqlTokenize qt) 0
            (opts.vectorWeight.getD (7 / 10)) a).hybrid_score))
        = decide (a.dist ≤ b.dist) := by
      intro a b
      simp only [hybridScoreRow, zero_mul, add_zero, decide_eq_decide]
      constructor <;> intro h <;> nlinarith [hvw]
    exact congrArg (fun l => (List.take (opts.limit.getD 5) l).map (fun d : SearchRow => d.id))
      (sortOrd_congr _ _ _ hcmp)
  · intro hvw0
    refine ⟨_, hres, ?_⟩
    intro r hr
    simp only [hvw0, Option.getD_some] at hr
    obtain ⟨p, hp, rfl⟩ := List.mem_map.mp hr
    have hrow := enum_snd_mem _ _ hp
    obtain ⟨d, hd, _, hid, _, _, hsc⟩ :=
      hybrid_search_mem lnQ corpus stats qt (opts.threshold.getD (1 / 20))
        (opts.bm25Weight.getD (3 / 10)) 0 (opts.limit.getD 5) p.2 hrow
    refine ⟨d, hd, ?_, ?_⟩
    · dsimp only
      exact hid
    · dsimp only
      rw [hsc, zero_mul, zero_add]

/-- Witness for C8: the one-row corpus `corpus1` with the embedding [1, 0],
once with `bm25Weight = 0` (default vector weight 7/10) and once with
`vectorWeight = 0` (default bm25 weight 3/10). -/
theorem C8_zero_weight_degenerations_witness :
    (∃ res, hybridSearch (fun x => x - 1) corpus1 ⟨1, 5, 0⟩ "aa"
        ⟨some [1, 0], some 5, none, some 0, none⟩ = Except.ok res ∧
      res.map (fun r => r.id) = (vectorSearch corpus1 5 (1 / 20)).map (fun r => r.id)) ∧
    (∃ res, hybridSearch (fun x => x - 1) corpus1 ⟨1, 5, 0⟩ "aa"
        ⟨some [1, 0], some 5, none, none, some 0⟩ = Except.ok res ∧
      ∀ r ∈ res, ∃ d ∈ corpus1, r.id = d.id ∧
        r.score = (3 : ℚ) / 10 *
          min (hybridDocBm25 (fun x => x - 1) corpus1 ⟨1, 5, 0⟩ "aa" d / 10) 1) := by
  constructor
  · exact (C8_zero_weight_degenerations (fun x => x - 1) corpus1 ⟨1, 5, 0⟩ "aa"
      ⟨some [1, 0], some 5, none, some 0, none⟩ [1, 0] rfl (by decide)).1 rfl (by norm_num)
  · exact (C8_zero_weight_degenerations (fun x => x - 1) corpus1 ⟨1, 5, 0⟩ "aa"
      ⟨some [1, 0], some 5, none, none, some 0⟩ [1, 0] rfl (by decide)).2 rfl

/-- Counterexample for C8 as stated: over `dogsCorpus` with stored stats
`(10, 10)` and `vectorWeight = 0`, the single returned fused score is
`3/10` (the default `bm25Weight` times the saturated clamp), while the pure
normalized lexical score of the returned document is `1`: the fused score
degrades to a `bm25Weight`-scaled normalized lexical score, not to the
normalized lexical score itself (ln instantiated sign-faithfully as
x - 1; the raw BM25 value 88000/7509 exceeds the scale constant 10). -/
theorem C8_counterexample_vector_zero_score_scaled :
    (hybridSearch (fun x => x - 1) dogsCorpus ⟨10, 10, 0⟩ "dogs"
        ⟨some [1, 0, 0], none, none, none, some 0⟩).map
      (fun res => res.map (fun r => r.score)) = Except.ok [3 / 10] ∧
    min (hybridDocBm25 (fun x => x - 1) dogsCorpus ⟨10, 10, 0⟩ "dogs" dogsRow / 10) 1 = 1 ∧
    ((3 : ℚ) / 10 ≠ 1) := by
  have hdf : dfCount [(⟨1, 0, 10, fun _ => 1000, fun tm => tm = "dogs", true, 0⟩ : SearchRow)]
      "dogs" = 1 := by decide
  have htok : sqlTokenize "dogs" = ["dogs"] := by decide
  refine ⟨?_, ?_, by norm_num⟩
  · unfold hybridSearch hybrid_search_documents
    rw [htok]
    norm_num [Except.map, dogsCorpus, dogsRow, hybridScoreRow, bm25_score_eq_max_sum,
      List.filter_cons, List.filter_nil, decide_eq_true_eq, bm25Contrib_eq,
      bm25Idf, bm25Ntf, hdf, List.map_cons, List.map_nil, List.sum_cons,
      List.sum_nil, sortOrd, insertOrd, List.take, max_def, min_def, List.enum,
      List.enumFrom]
  · unfold hybridDocBm25
    rw [htok]
    norm_num [dogsCorpus, dogsRow, bm25_score_eq_max_sum, bm25Contrib_eq,
      bm25Idf, bm25Ntf, hdf, List.map_cons, List.map_nil, List.sum_cons,
      List.sum_nil, max_def, min_def]


end Rag
